import Mathlib

/-!
Verification development for the coordinate resolution and caching engine in
`src/core/ai_converter.py` (classes `SQLiteFlow` and `AIConverter`).

Strings are modelled as lists of Unicode codepoints (`PyStr := List Nat`), so
that Python's `str.lower()` / `str.title()` (which handle Cyrillic) and
SQLite's built-in `LOWER()` (which folds ASCII letters only) can be modelled
as distinct functions, exactly as they behave in the program.  The case
mappings are modelled on the character ranges the program's data uses
(ASCII and Ukrainian/Russian Cyrillic); other codepoints are treated as
uncased, matching Python on this domain.

Floating point coordinates are modelled as rationals: every literal the code
compares against (44.0, 52.5, 22.0, 40.5) and every input used in the claims
is exactly representable, so no rounding behaviour is observable.
-/

/-- A Python string, as its list of Unicode codepoints. -/
abbrev PyStr := List Nat

/-- Codepoints of a Lean string literal, used to write concrete inputs. -/
def pyS (s : String) : PyStr := s.data.map Char.toNat

/-- ASCII whitespace, the characters stripped by `str.strip()` and matched by
`\s` that can occur in the program's single-line inputs. -/
def IsWs (c : Nat) : Prop := c = 32 ∨ (9 ≤ c ∧ c ≤ 13)

instance (c : Nat) : Decidable (IsWs c) := by unfold IsWs; infer_instance

/-- Python `str.lower()` on one codepoint (ASCII + Cyrillic ranges). -/
def pyLowerC (c : Nat) : Nat :=
  if 65 ≤ c ∧ c ≤ 90 then c + 32
  else if 1040 ≤ c ∧ c ≤ 1071 then c + 32
  else if c = 1025 then 1105
  else if c = 1028 then 1108
  else if c = 1030 then 1110
  else if c = 1031 then 1111
  else if c = 1168 then 1169
  else c

/-- Python `str.upper()` on one codepoint (ASCII + Cyrillic ranges). -/
def pyUpperC (c : Nat) : Nat :=
  if 97 ≤ c ∧ c ≤ 122 then c - 32
  else if 1072 ≤ c ∧ c ≤ 1103 then c - 32
  else if c = 1105 then 1025
  else if c = 1108 then 1028
  else if c = 1110 then 1030
  else if c = 1111 then 1031
  else if c = 1169 then 1168
  else c

/-- SQLite's built-in `LOWER()` on one codepoint: ASCII letters only. -/
def sqlLowerC (c : Nat) : Nat :=
  if 65 ≤ c ∧ c ≤ 90 then c + 32 else c

/-- A cased (alphabetic) codepoint in the modelled ranges; these are the word
characters for Python's `str.title()`. -/
def IsPyAlpha (c : Nat) : Prop :=
  (65 ≤ c ∧ c ≤ 90) ∨ (97 ≤ c ∧ c ≤ 122) ∨ (1040 ≤ c ∧ c ≤ 1103) ∨
    c = 1025 ∨ c = 1105 ∨ c = 1028 ∨ c = 1108 ∨ c = 1030 ∨ c = 1110 ∨
    c = 1031 ∨ c = 1111 ∨ c = 1168 ∨ c = 1169

instance (c : Nat) : Decidable (IsPyAlpha c) := by unfold IsPyAlpha; infer_instance

/-- Python `str.lower()`. -/
def pyLowerL (s : PyStr) : PyStr := s.map pyLowerC

/-- Python `str.upper()`. -/
def pyUpperL (s : PyStr) : PyStr := s.map pyUpperC

/-- SQLite `LOWER()`. -/
def sqlLowerL (s : PyStr) : PyStr := s.map sqlLowerC

/-- Decidable whitespace test, in `Bool` form for the list combinators. -/
def wsB (c : Nat) : Bool := decide (IsWs c)

/-- Python `str.strip()`: drop ASCII whitespace from both ends. -/
def pyStrip (s : PyStr) : PyStr := (s.dropWhile wsB).rdropWhile wsB

/-- Worker for Python `str.title()`: the flag records whether the previous
character was alphabetic (i.e. whether we are inside a word). -/
def pyTitleAux : Bool → PyStr → PyStr
  | _, [] => []
  | prevAlpha, c :: cs =>
    if IsPyAlpha c then
      (if prevAlpha then pyLowerC c else pyUpperC c) :: pyTitleAux true cs
    else
      c :: pyTitleAux false cs

/-- Python `str.title()`: first letter of each maximal letter run uppercased,
the rest lowercased. -/
def pyTitle (s : PyStr) : PyStr := pyTitleAux false s

/-- The fixed correction table `SQLiteFlow.region_corrections`. -/
def regionCorrections : List (PyStr × PyStr) :=
  [(pyS "хмельничена", pyS "хмельниччина"),
   (pyS "хмельниченна", pyS "хмельниччина")]

/-- `SQLiteFlow.normalize_region_name`: strip, lowercase, look up the
correction table; title-case the correction on a hit, otherwise title-case
the stripped original. -/
def normalizeRegionName (regionName : PyStr) : PyStr :=
  let cleaned := pyLowerL (pyStrip regionName)
  match regionCorrections.lookup cleaned with
  | some corrected => pyTitle corrected
  | none => pyTitle (pyStrip regionName)

/-- The title-casing word flag after consuming a list of characters. -/
def endsAlpha : Bool → PyStr → Bool
  | b, [] => b
  | _, c :: cs => endsAlpha (decide (IsPyAlpha c)) cs

/-- One row of the `cities` table (the auto-increment `id` is carried beside
it; `created_at` is not modelled, nothing reads it). -/
structure CityRow where
  city_name : PyStr
  region_name : PyStr
  latitude : ℚ
  longitude : ℚ
  confidence : ℚ
  source : PyStr
  deriving DecidableEq

/-- The `cities` table: rows paired with their ids, in insertion (id) order,
plus the next auto-increment id. -/
structure CitiesTable where
  rows : List (Nat × CityRow)
  nextId : Nat
  deriving DecidableEq

/-- One row of the `regions` table. -/
structure RegionRow where
  region_name : PyStr
  latitude : ℚ
  longitude : ℚ
  confidence : ℚ
  source : PyStr
  deriving DecidableEq

/-- The `regions` table. -/
structure RegionsTable where
  rows : List (Nat × RegionRow)
  nextId : Nat
  deriving DecidableEq

def emptyCitiesTable : CitiesTable := ⟨[], 1⟩

def emptyRegionsTable : RegionsTable := ⟨[], 1⟩

/-- The bound 52.5, built directly as a rational so that kernel evaluation
(`decide`) works on comparisons against it. -/
def latMaxQ : ℚ := ⟨105, 2, by norm_num, by norm_num⟩

/-- The bound 40.5. -/
def lonMaxQ : ℚ := ⟨81, 2, by norm_num, by norm_num⟩

/-- The default confidence 0.8, built directly as a rational. -/
def qPoint8 : ℚ := ⟨4, 5, by norm_num, by norm_num⟩

/-- `SQLiteFlow._validate_ukraine_coordinates`: the fixed bounding box
44.0 ≤ lat ≤ 52.5, 22.0 ≤ lon ≤ 40.5. -/
def ValidUkraineCoordinates (latitude longitude : ℚ) : Prop :=
  (44 ≤ latitude ∧ latitude ≤ latMaxQ) ∧ (22 ≤ longitude ∧ longitude ≤ lonMaxQ)

instance (la lo : ℚ) : Decidable (ValidUkraineCoordinates la lo) := by
  unfold ValidUkraineCoordinates; infer_instance

/-- What `get_city_coordinates` / `get_region_coordinates` return on a hit:
coordinates, confidence, and the stored source tag prefixed `database_`. -/
structure CoordLookup where
  latitude : ℚ
  longitude : ℚ
  confidence : ℚ
  source : PyStr
  deriving DecidableEq

/-- `SQLiteFlow.get_city_coordinates`: exact match on the city name and the
normalized region name; first matching row wins. -/
def getCityCoordinates (t : CitiesTable) (cityName regionName : PyStr) :
    Option CoordLookup :=
  let nr := normalizeRegionName regionName
  match t.rows.find?
      (fun p => decide (p.2.city_name = cityName ∧ p.2.region_name = nr)) with
  | some p => some ⟨p.2.latitude, p.2.longitude, p.2.confidence,
      pyS "database_" ++ p.2.source⟩
  | none => none

/-- `SQLiteFlow.save_city_coordinates`: reject out-of-box coordinates (store
untouched, returns false), otherwise `INSERT OR REPLACE` keyed on
`(city_name, region_name)`: matching rows are removed and a fresh row with a
fresh id is appended. -/
def saveCityCoordinates (t : CitiesTable) (cityName regionName : PyStr)
    (latitude longitude confidence : ℚ) (source : PyStr) : CitiesTable × Bool :=
  if ValidUkraineCoordinates latitude longitude then
    let nr := normalizeRegionName regionName
    let kept := t.rows.filter
      (fun p => decide (¬(p.2.city_name = cityName ∧ p.2.region_name = nr)))
    (⟨kept ++ [(t.nextId, ⟨cityName, nr, latitude, longitude, confidence, source⟩)],
      t.nextId + 1⟩, true)
  else (t, false)

/-- The observable content of the cities store: its rows without the
auto-increment ids. -/
def citiesView (t : CitiesTable) : List CityRow := t.rows.map Prod.snd

/-- `SQLiteFlow.get_region_coordinates`: `WHERE LOWER(region_name) =
LOWER(?)` on the stripped input — SQLite `LOWER`, i.e. ASCII-only folding,
and no correction table. -/
def getRegionCoordinates (t : RegionsTable) (regionName : PyStr) :
    Option CoordLookup :=
  match t.rows.find?
      (fun p => decide (sqlLowerL p.2.region_name = sqlLowerL (pyStrip regionName))) with
  | some p => some ⟨p.2.latitude, p.2.longitude, p.2.confidence,
      pyS "database_" ++ p.2.source⟩
  | none => none

/-- `SQLiteFlow.save_region_coordinates`: reject out-of-box coordinates; if a
row whose `LOWER`-folded name equals that of the normalized input exists, do
nothing and report success; otherwise insert the normalized row.  (The
`UNIQUE(region_name)` constraint cannot fire on this insert: an exact
duplicate would already be caught by the `LOWER` existence check.) -/
def saveRegionCoordinates (t : RegionsTable) (regionName : PyStr)
    (latitude longitude confidence : ℚ) (source : PyStr) : RegionsTable × Bool :=
  if ValidUkraineCoordinates latitude longitude then
    let nr := normalizeRegionName regionName
    if t.rows.any (fun p => decide (sqlLowerL p.2.region_name = sqlLowerL nr)) then
      (t, true)
    else
      (⟨t.rows ++ [(t.nextId, ⟨nr, latitude, longitude, confidence, source⟩)],
        t.nextId + 1⟩, true)
  else (t, false)

/-- First-occurrence deduplication, giving the distinct `LOWER`-folded names
over which `GROUP BY LOWER(region_name)` groups the rows.  (SQLite leaves the
group order unspecified; first-occurrence order is taken as the model's
order, and no theorem below depends on it.) -/
def dedupFirstAux : List PyStr → List PyStr → List PyStr
  | _, [] => []
  | seen, k :: ks =>
    if k ∈ seen then dedupFirstAux seen ks
    else k :: dedupFirstAux (k :: seen) ks

def dedupFirst (l : List PyStr) : List PyStr := dedupFirstAux [] l

/-- The duplicate groups found by `clean_region_duplicates`: for each
`LOWER`-folded name appearing more than once, the `(id, region_name)` pairs
of its rows in id order.  The Python code rebuilds this pairing from two
aligned `GROUP_CONCAT` strings, which agrees with this model whenever region
names contain no comma. -/
def dupGroups (rows : List (Nat × RegionRow)) : List (List (Nat × PyStr)) :=
  ((dedupFirst (rows.map (fun p => sqlLowerL p.2.region_name))).map
    (fun k => (rows.filter (fun p => decide (sqlLowerL p.2.region_name = k))).map
      (fun p => (p.1, p.2.region_name)))).filter (fun g => decide (1 < g.length))

/-- One pass of the duplicate-removal loop.  For each group: keep the row
with the highest id, rename it to the normalized form of its name, delete
the group's other rows and count them.  If the rename would collide with
the exact name of another currently-present row, the `UNIQUE(region_name)`
constraint fires: the function signals the `IntegrityError` with `none`. -/
def applyGroups : List (List (Nat × PyStr)) → List (Nat × RegionRow) → Nat →
    Option (List (Nat × RegionRow) × Nat)
  | [], rows, acc => some (rows, acc)
  | g :: gs, rows, acc =>
    let ids := g.map Prod.fst
    let latestId := ids.foldl max 0
    let latestName := match g.find? (fun p => decide (p.1 = latestId)) with
      | some p => p.2
      | none => []
    let nn := normalizeRegionName latestName
    if rows.any (fun p => decide (p.1 ≠ latestId ∧ p.2.region_name = nn)) then
      none
    else
      applyGroups gs
        ((rows.map (fun p => if p.1 = latestId then
            (p.1, ⟨nn, p.2.latitude, p.2.longitude, p.2.confidence, p.2.source⟩)
          else p)).filter
          (fun p => decide (¬(p.1 ∈ ids ∧ p.1 ≠ latestId))))
        (acc + (ids.length - 1))

/-- `SQLiteFlow.clean_region_duplicates`: compute the duplicate groups from a
snapshot of the table, then update/delete.  On an `IntegrityError` (see
`applyGroups`) the transaction rolls back and the `except` handler
returns 0 with the store unchanged. -/
def cleanRegionDuplicates (t : RegionsTable) : RegionsTable × Nat :=
  match applyGroups (dupGroups t.rows) t.rows 0 with
  | some (rows, n) => (⟨rows, t.nextId⟩, n)
  | none => (t, 0)

/-- A decimal digit codepoint (`\d` restricted to ASCII digits, which is what
the program's bulletin counts use). -/
def isDigitB (c : Nat) : Bool := decide (48 ≤ c ∧ c ≤ 57)

/-- Numeric value of a digit run (Python `int`). -/
def natFromDigits (ds : PyStr) : Nat := ds.foldl (fun a c => a * 10 + (c - 48)) 0

/-- Python `text.split('\n')`. -/
def splitOnNl : PyStr → List PyStr
  | [] => [[]]
  | 10 :: t => [] :: splitOnNl t
  | c :: t =>
    match splitOnNl t with
    | [] => [[c]]
    | s :: rest => (c :: s) :: rest

/-- Match a literal case-insensitively (the pattern is given in Python
lowercase), returning the rest of the input. -/
def matchLitCI : PyStr → PyStr → Option PyStr
  | [], s => some s
  | _ :: _, [] => none
  | p :: ps, c :: cs => if pyLowerC c = p then matchLitCI ps cs else none

/-- Match a literal exactly (case-sensitive). -/
def matchLit : PyStr → PyStr → Option PyStr
  | [], s => some s
  | _ :: _, [] => none
  | p :: ps, c :: cs => if c = p then matchLit ps cs else none

/-- `\s+` before a non-whitespace literal: require at least one whitespace
character and consume the whole run (greedy, and here backtracking can never
help because what follows starts with a non-whitespace character). -/
def spaces1 : PyStr → Option PyStr
  | [] => none
  | c :: cs => if IsWs c then some (cs.dropWhile wsB) else none

/-- `\s+` followed by the final greedy `(.+)` capture: all remaining
characters after the maximal whitespace run if any remain, else — by
backtracking one whitespace character — the last whitespace character
alone. -/
def spacesThenRest : PyStr → Option PyStr
  | [] => none
  | c :: cs =>
    if IsWs c then
      match cs.dropWhile wsB with
      | [] =>
        match cs.getLast? with
        | some d => some [d]
        | none => none
      | rest => some rest
    else none

/-- The tail of the grouped pattern after the optional count:
`(?:ГРУПИ?|Групи?)\s+КР\s+курсом\s+на\s+(.+)` under IGNORECASE, which is the
case-insensitive word "груп" with optional "и", then "кр", "курсом", "на"
and the destination capture. -/
def groupCore (s : PyStr) : Option PyStr :=
  match matchLitCI (pyS "груп") s with
  | none => none
  | some r1 =>
    let r2 := match r1 with
      | c :: t => if pyLowerC c = 1080 then t else r1
      | [] => r1
    match spaces1 r2 with
    | none => none
    | some r3 =>
      match matchLitCI (pyS "кр") r3 with
      | none => none
      | some r4 =>
        match spaces1 r4 with
        | none => none
        | some r5 =>
          match matchLitCI (pyS "курсом") r5 with
          | none => none
          | some r6 =>
            match spaces1 r6 with
            | none => none
            | some r7 =>
              match matchLitCI (pyS "на") r7 with
              | none => none
              | some r8 => spacesThenRest r8

/-- The grouped regex
`(?:(\d+)х?\s+)?(?:ГРУПИ?|Групи?)\s+КР\s+курсом\s+на\s+(.+)` (IGNORECASE)
anchored at the start of `s`: greedy digits, optional Cyrillic `х` (either
case under IGNORECASE), mandatory whitespace, then the group core; if the
counted form fails, the uncounted alternative at the same position.
(Shorter digit runs can never succeed where the maximal run fails, because
the character after a shortened run is a digit, matching neither `х?` nor
`\s`.) -/
def groupKrAt (s : PyStr) : Option (Option Nat × PyStr) :=
  let noCount := (groupCore s).map (fun city => ((none : Option Nat), city))
  let ds := s.takeWhile isDigitB
  if ds = [] then noCount
  else
    let r1 := s.dropWhile isDigitB
    let r2 := match r1 with
      | c :: t => if pyLowerC c = 1093 then t else r1
      | [] => r1
    match spaces1 r2 with
    | none => noCount
    | some r3 =>
      match groupCore r3 with
      | some city => some (some (natFromDigits ds), city)
      | none => noCount

/-- `re.search` with the grouped pattern: try every start position from the
left. -/
def groupKrSearch : PyStr → Option (Option Nat × PyStr)
  | [] => none
  | c :: t =>
    match groupKrAt (c :: t) with
    | some v => some v
    | none => groupKrSearch t

/-- The tail of the generic pattern: `(\S+)\s+курсом\s+на\s+(.+)`,
case-sensitive (the generic regex carries no IGNORECASE flag): a maximal
non-whitespace run as the weapon token, then the literals and the
destination capture. -/
def standardCore (s : PyStr) : Option (PyStr × PyStr) :=
  let w := s.takeWhile (fun c => !(wsB c))
  if w = [] then none
  else
    match spaces1 (s.dropWhile (fun c => !(wsB c))) with
    | none => none
    | some r2 =>
      match matchLit (pyS "курсом") r2 with
      | none => none
      | some r3 =>
        match spaces1 r3 with
        | none => none
        | some r4 =>
          match matchLit (pyS "на") r4 with
          | none => none
          | some r5 =>
            match spacesThenRest r5 with
            | some city => some (w, city)
            | none => none

/-- The generic regex `(?:(\d+)х?\s+)?(\S+)\s+курсом\s+на\s+(.+)` anchored
at the start of `s` (here `х` matches only lowercase Cyrillic х).  When the
counted prefix fails, the uncounted alternative restarts at the same
position, so the weapon token `(\S+)` then swallows the digits. -/
def standardAt (s : PyStr) : Option (Option Nat × PyStr × PyStr) :=
  let noCount := (standardCore s).map (fun p => ((none : Option Nat), p.1, p.2))
  let ds := s.takeWhile isDigitB
  if ds = [] then noCount
  else
    let r1 := s.dropWhile isDigitB
    let r2 := match r1 with
      | c :: t => if c = 1093 then t else r1
      | [] => r1
    match spaces1 r2 with
    | none => noCount
    | some r3 =>
      match standardCore r3 with
      | some p => some (some (natFromDigits ds), p.1, p.2)
      | none => noCount

/-- `re.search` with the generic pattern. -/
def standardSearch : PyStr → Option (Option Nat × PyStr × PyStr)
  | [] => none
  | c :: t =>
    match standardAt (c :: t) with
    | some v => some v
    | none => standardSearch t

/-- One parsed event: the dict `{'weapon_type', 'count', 'target_city'}`. -/
structure Weapon where
  weapon_type : PyStr
  count : Nat
  target_city : PyStr
  deriving DecidableEq

/-- `regions[current_region].append(...)`: append an event to the list held
under the given key. -/
def appendEvent (regions : List (PyStr × List Weapon)) (r : PyStr) (e : Weapon) :
    List (PyStr × List Weapon) :=
  regions.map (fun p => if p.1 = r then (p.1, p.2 ++ [e]) else p)

/-- `if current_region not in regions: regions[current_region] = []`. -/
def addRegionIfAbsent (regions : List (PyStr × List Weapon)) (r : PyStr) :
    List (PyStr × List Weapon) :=
  if regions.any (fun p => decide (p.1 = r)) then regions else regions ++ [(r, [])]

/-- One iteration of the line loop of `AIConverter.extract_weapon_info`:
the state is the region map (an insertion-ordered association list with
unique keys, modelling the Python dict) and the current region.  Item lines
run under `if current_region:` — Python truthiness — so both the initial
`None` and an empty region name (a header consisting of colons only) are
skipped. -/
def processLine (st : List (PyStr × List Weapon) × Option PyStr)
    (rawLine : PyStr) : List (PyStr × List Weapon) × Option PyStr :=
  let line := pyStrip rawLine
  if line = [] then st
  else if line.getLast? = some 58 then
    (addRegionIfAbsent st.1 (line.filter (fun c => decide (c ≠ 58))),
     some (line.filter (fun c => decide (c ≠ 58))))
  else
    match st.2 with
    | none => st
    | some r =>
      if r = [] then st
      else
      match groupKrSearch line with
      | some (cnt, city) =>
        (appendEvent st.1 r ⟨pyS "Х101", cnt.getD 1 * 2, pyStrip city⟩, some r)
      | none =>
        match standardSearch line with
        | some (cnt, w, city) =>
          (appendEvent st.1 r
            ⟨if pyUpperL w = pyS "КР" then pyS "Х101" else w, cnt.getD 1,
              pyStrip city⟩, some r)
        | none => st

/-- `AIConverter.extract_weapon_info`: strip the text, split on newlines,
and fold the line processor over the lines. -/
def extractWeaponInfo (text : PyStr) : List (PyStr × List Weapon) :=
  ((splitOnNl (pyStrip text)).foldl processLine ([], none)).1

/-- One attempt's outcome at the external text-generation service: a reply
(whose text may be empty — the code treats a falsy reply as a failed attempt
and just moves to the next one), or an exception carrying its message. -/
inductive ApiAttempt where
  | reply (text : PyStr)
  | err (msg : PyStr)

/-- Whether `pat` is a prefix of `s` (helper for the substring test). -/
def isSubPrefix : PyStr → PyStr → Bool
  | [], _ => true
  | _ :: _, [] => false
  | p :: ps, c :: cs => decide (p = c) && isSubPrefix ps cs

/-- Python's `pat in s` substring test. -/
def containsSub (pat : PyStr) : PyStr → Bool
  | [] => pat.isEmpty
  | c :: t => isSubPrefix pat (c :: t) || containsSub pat t

/-- The quota classification: `"quota" in msg.lower() or "429" in msg`. -/
def isQuotaMsg (msg : PyStr) : Bool :=
  containsSub (pyS "quota") (pyLowerL msg) || containsSub (pyS "429") msg

/-- The rate-limit classification: `"rate limit" in msg.lower()` (tested
only after the quota test fails). -/
def isRateLimitMsg (msg : PyStr) : Bool :=
  containsSub (pyS "rate limit") (pyLowerL msg)

/-- The retry loop of `AIConverter._rate_limited_api_call`, structurally
recursive on the number of remaining loop iterations (`remaining` equals
`maxRetries - attempt` throughout).  It returns the backoff sleeps performed
(in seconds) and the final caller-visible result — `none` whenever the
attempts are exhausted, on any failure kind.  The attempt outcomes and the
values drawn by `random.uniform` are inputs; the initial throttle wait
before the loop depends on the wall clock and is outside the claims. -/
def retryGo (maxRetries : Nat) (apiDelay : ℚ) (att : Nat → ApiAttempt)
    (jit : Nat → ℚ) : Nat → Nat → List ℚ × Option PyStr
  | 0, _ => ([], none)
  | remaining + 1, attempt =>
    match att attempt with
    | .reply t =>
      if t = [] then retryGo maxRetries apiDelay att jit remaining (attempt + 1)
      else ([], some (pyStrip t))
    | .err msg =>
      if isQuotaMsg msg then
        if attempt < maxRetries - 1 then
          ((2 ^ attempt * 10 + jit attempt) ::
              (retryGo maxRetries apiDelay att jit remaining (attempt + 1)).1,
            (retryGo maxRetries apiDelay att jit remaining (attempt + 1)).2)
        else ([], none)
      else if isRateLimitMsg msg then
        if attempt < maxRetries - 1 then
          ((apiDelay * 2 ^ attempt + jit attempt) ::
              (retryGo maxRetries apiDelay att jit remaining (attempt + 1)).1,
            (retryGo maxRetries apiDelay att jit remaining (attempt + 1)).2)
        else ([], none)
      else
        if attempt < maxRetries - 1 then
          ((1 + jit attempt) ::
              (retryGo maxRetries apiDelay att jit remaining (attempt + 1)).1,
            (retryGo maxRetries apiDelay att jit remaining (attempt + 1)).2)
        else retryGo maxRetries apiDelay att jit remaining (attempt + 1)

/-- `AIConverter._rate_limited_api_call` from the first attempt. -/
def rateLimitedApiCall (maxRetries : Nat) (apiDelay : ℚ) (att : Nat → ApiAttempt)
    (jit : Nat → ℚ) : List ℚ × Option PyStr :=
  retryGo maxRetries apiDelay att jit maxRetries 0

/-- One target object of a structured enrichment reply (required fields per
the reply contract; replies whose shape cannot be parsed into this are the
`parseFail` outcome). -/
structure TargetIn where
  city : PyStr
  weapon_type : PyStr
  count : Nat
  latitude : ℚ
  longitude : ℚ
  confidence : Option ℚ
  deriving DecidableEq

/-- A structured enrichment reply, as json-parsed by
`get_region_coordinates_from_ai` (`region_coordinates`, `region_confidence`
and `targets` are all optional keys). -/
structure AiResult where
  region_coordinates : Option (ℚ × ℚ)
  region_confidence : Option ℚ
  targets : Option (List TargetIn)
  deriving DecidableEq

/-- The caller-visible outcome of one enrichment call: `apiFail` when
`_rate_limited_api_call` returned `None` after its retries, `parseFail` when
the cleaned reply was not valid JSON, `ok` for a structured reply. -/
inductive AiOutcome where
  | apiFail
  | parseFail
  | ok (res : AiResult)

/-- One target dict in the result of `get_region_coordinates_from_ai`:
cache hits carry a confidence and a `database_`-prefixed source; AI targets
carry the reply's optional confidence and no source key (defaults are
applied downstream via `.get`). -/
structure TargetOut where
  city : PyStr
  weapon_type : PyStr
  count : Nat
  latitude : ℚ
  longitude : ℚ
  confidence : Option ℚ
  source : Option PyStr
  deriving DecidableEq

/-- Result of `get_region_coordinates_from_ai`: an error dict with its kind
string, or the success dict `{region, targets, coordinates_rn?}`. -/
inductive AiRegionResult where
  | fail (kind : PyStr)
  | ok (region : PyStr) (targets : List TargetOut) (coordinatesRn : Option (ℚ × ℚ))
  deriving DecidableEq

/-- The persistent store owned by `SQLiteFlow`: the two tables. -/
structure DB where
  cities : CitiesTable
  regions : RegionsTable
  deriving DecidableEq

def emptyDB : DB := ⟨emptyCitiesTable, emptyRegionsTable⟩

/-- The cache partition loop at the top of
`AIConverter.get_region_coordinates_from_ai`: hits become targets at once
(with the `database_`-prefixed source), misses are collected for the
enrichment request, both in input order. -/
def partitionWeapons (db : DB) (regionName : PyStr) :
    List Weapon → List TargetOut × List Weapon
  | [] => ([], [])
  | w :: ws =>
    match getCityCoordinates db.cities w.target_city regionName with
    | some c =>
      ((⟨w.target_city, w.weapon_type, w.count, c.latitude, c.longitude,
          some c.confidence, some c.source⟩ : TargetOut)
        :: (partitionWeapons db regionName ws).1,
       (partitionWeapons db regionName ws).2)
    | none =>
      ((partitionWeapons db regionName ws).1,
       w :: (partitionWeapons db regionName ws).2)

/-- `AIConverter.get_region_coordinates_from_ai`.  The network call is
abstracted by the `ai` outcome; the third component records the payload of
each issued enrichment request — `(region, weapons_for_ai)` — so the call
count and request content are part of the observable behaviour.  On a
structured reply: a region coordinate is saved (and used) only when none was
cached; every reply target is appended to the results and saved to the city
cache with source `Gemini` (rejected saves are ignored, as in the code). -/
def getRegionCoordinatesFromAi (db : DB) (regionName : PyStr)
    (weaponsList : List Weapon) (ai : AiOutcome) :
    DB × AiRegionResult × List (PyStr × List Weapon) :=
  let regionCoords := getRegionCoordinates db.regions regionName
  let part := partitionWeapons db regionName weaponsList
  if part.2 ≠ [] ∨ regionCoords = none then
    match ai with
    | .apiFail => (db, .fail (pyS "api_error"), [(regionName, part.2)])
    | .parseFail => (db, .fail (pyS "json_parse_error"), [(regionName, part.2)])
    | .ok res =>
      let db1 : DB :=
        match res.region_coordinates, regionCoords with
        | some rc, none =>
          ⟨db.cities, (saveRegionCoordinates db.regions regionName rc.1 rc.2
            (res.region_confidence.getD qPoint8) (pyS "Gemini")).1⟩
        | _, _ => db
      let coordsFinal : Option (ℚ × ℚ) :=
        match res.region_coordinates, regionCoords with
        | some rc, none => some rc
        | _, _ => regionCoords.map (fun c => (c.latitude, c.longitude))
      let db2 : DB :=
        match res.targets with
        | some ts => ts.foldl (fun d t =>
            ⟨(saveCityCoordinates d.cities t.city regionName t.latitude
                t.longitude (t.confidence.getD qPoint8) (pyS "Gemini")).1,
              d.regions⟩) db1
        | none => db1
      let targetsFinal : List TargetOut :=
        match res.targets with
        | some ts => part.1 ++ ts.map (fun t =>
            (⟨t.city, t.weapon_type, t.count, t.latitude, t.longitude,
              t.confidence, none⟩ : TargetOut))
        | none => part.1
      (db2, .ok regionName targetsFinal coordsFinal, [(regionName, part.2)])
  else
    (db, .ok regionName part.1
      (regionCoords.map (fun c => (c.latitude, c.longitude))), [])

/-- One flattened target of `_process_single_region`, with the `.get`
defaults applied: confidence 0.8, source "AI_generated". -/
structure TargetFinal where
  city : PyStr
  weapon_type : PyStr
  count : Nat
  latitude : ℚ
  longitude : ℚ
  confidence : ℚ
  source : PyStr
  deriving DecidableEq

/-- The per-region dict built by `_process_single_region`. -/
structure RegionData where
  region : PyStr
  targets : List TargetFinal
  total_processed : Nat
  tokens_used : Nat
  weapons_count : Nat
  coordinates_rn : Option (ℚ × ℚ)
  deriving DecidableEq

/-- `AIConverter._process_single_region`: an error result (and any exception
the code catches) yields `none`; a success flattens the targets and sums
their counts into `weapons_count`. -/
def processSingleRegion (db : DB) (regionName : PyStr)
    (weaponsList : List Weapon) (ai : AiOutcome) : DB × Option RegionData :=
  match getRegionCoordinatesFromAi db regionName weaponsList ai with
  | (db2, .fail _, _) => (db2, none)
  | (db2, .ok _ targets coordsRn, _) =>
    (db2, some ⟨regionName,
      targets.map (fun t => ⟨t.city, t.weapon_type, t.count, t.latitude,
        t.longitude, t.confidence.getD qPoint8, t.source.getD (pyS "AI_generated")⟩),
      targets.length, 100,
      (targets.map (fun t => t.count)).sum, coordsRn⟩)

/-- `SQLiteFlow.get_database_stats`: row counts, distinct regions in the
cities table, and the source histogram. -/
structure DbStats where
  total_cities : Nat
  total_regions : Nat
  total_regions_with_coords : Nat
  sources : PyStr → Nat

def getDatabaseStats (db : DB) : DbStats :=
  ⟨db.cities.rows.length,
   ((db.cities.rows.map (fun p => p.2.region_name)).dedup).length,
   db.regions.rows.length,
   fun s => (db.cities.rows.filter (fun p => decide (p.2.source = s))).length⟩

/-- The run-level dict returned by `proccess_data`. -/
structure RunResult where
  regions : List RegionData
  total_regions : Nat
  total_cities : Nat
  total_weapons_used : Finset PyStr
  total_weapons_count : Nat
  total_tokens_used : Nat
  processing_mode : PyStr
  status : PyStr
  database_stats : DbStats

/-- The sequential (`max_workers = 1`) region loop of
`AIConverter.proccess_data`: the store threads through; failed regions are
skipped, successful ones accumulate in processing order. -/
def processRegions (ai : PyStr → AiOutcome) :
    DB → List (PyStr × List Weapon) → DB × List RegionData
  | db, [] => (db, [])
  | db, (r, ws) :: rest =>
    match processSingleRegion db r ws (ai r) with
    | (db2, none) => processRegions ai db2 rest
    | (db2, some rd) =>
      match processRegions ai db2 rest with
      | (db3, rds) => (db3, rd :: rds)

/-- `AIConverter.proccess_data` in its sequential mode.  (The
`max_workers = 2` default runs the same per-region function on a thread
pool and aggregates by the same formulas in completion order; thread
scheduling is outside a sequential shallow embedding.)  All run totals are
sums over the successfully processed regions; the status is always
"success". -/
def proccessData (db : DB) (data : PyStr) (ai : PyStr → AiOutcome) :
    DB × RunResult :=
  let out := processRegions ai db (extractWeaponInfo data)
  (out.1,
   ⟨out.2,
    out.2.length,
    (out.2.map (fun r => r.targets.length)).sum,
    out.2.foldl (fun s r => r.targets.foldl
      (fun s2 t => insert t.weapon_type s2) s) ∅,
    (out.2.map (fun r => r.weapons_count)).sum,
    (out.2.map (fun r => r.tokens_used)).sum,
    pyS "sequential",
    pyS "success",
    getDatabaseStats out.1⟩)

example : normalizeRegionName (pyS " kyiv oblast ") = pyS "Kyiv Oblast" := by decide

example : normalizeRegionName (pyS "Хмельничена") = pyS "Хмельниччина" := by decide

theorem pyLowerC_of_ascii (c : Nat) (h1 : 65 ≤ c) (h2 : c ≤ 90) :
    pyLowerC c = c + 32 := by
  unfold pyLowerC; split_ifs <;> omega

theorem pyLowerC_of_cyr (c : Nat) (h1 : 1040 ≤ c) (h2 : c ≤ 1071) :
    pyLowerC c = c + 32 := by
  unfold pyLowerC; split_ifs <;> omega

theorem pyLowerC_of_out (c : Nat) (h1 : ¬(65 ≤ c ∧ c ≤ 90))
    (h2 : ¬(1040 ≤ c ∧ c ≤ 1071)) (h3 : c ≠ 1025) (h4 : c ≠ 1028)
    (h5 : c ≠ 1030) (h6 : c ≠ 1031) (h7 : c ≠ 1168) : pyLowerC c = c := by
  unfold pyLowerC; split_ifs <;> omega

theorem pyUpperC_of_out (c : Nat) (h1 : ¬(97 ≤ c ∧ c ≤ 122))
    (h2 : ¬(1072 ≤ c ∧ c ≤ 1103)) (h3 : c ≠ 1105) (h4 : c ≠ 1108)
    (h5 : c ≠ 1110) (h6 : c ≠ 1111) (h7 : c ≠ 1169) : pyUpperC c = c := by
  unfold pyUpperC; split_ifs <;> omega

theorem pyLowerC_cases (c : Nat) :
    (65 ≤ c ∧ c ≤ 90 ∧ pyLowerC c = c + 32) ∨
    (1040 ≤ c ∧ c ≤ 1071 ∧ pyLowerC c = c + 32) ∨
    c = 1025 ∨ c = 1028 ∨ c = 1030 ∨ c = 1031 ∨ c = 1168 ∨
    (¬(65 ≤ c ∧ c ≤ 90) ∧ ¬(1040 ≤ c ∧ c ≤ 1071) ∧ pyLowerC c = c) := by
  unfold pyLowerC; split_ifs <;> omega

theorem pyUpperC_cases (c : Nat) :
    (97 ≤ c ∧ c ≤ 122 ∧ pyUpperC c = c - 32) ∨
    (1072 ≤ c ∧ c ≤ 1103 ∧ pyUpperC c = c - 32) ∨
    c = 1105 ∨ c = 1108 ∨ c = 1110 ∨ c = 1111 ∨ c = 1169 ∨
    (¬(97 ≤ c ∧ c ≤ 122) ∧ ¬(1072 ≤ c ∧ c ≤ 1103) ∧ pyUpperC c = c) := by
  unfold pyUpperC; split_ifs <;> omega

theorem pyLowerC_pyLowerC (c : Nat) : pyLowerC (pyLowerC c) = pyLowerC c := by
  rcases pyLowerC_cases c with ⟨h1, h2, e⟩ | ⟨h1, h2, e⟩ | rfl | rfl | rfl | rfl | rfl | ⟨h1, h2, e⟩
  · rw [e, pyLowerC_of_out (c + 32) (by omega) (by omega) (by omega) (by omega)
      (by omega) (by omega) (by omega)]
  · rw [e, pyLowerC_of_out (c + 32) (by omega) (by omega) (by omega) (by omega)
      (by omega) (by omega) (by omega)]
  · decide
  · decide
  · decide
  · decide
  · decide
  · rw [e]; exact e

theorem pyLowerC_pyUpperC (c : Nat) : pyLowerC (pyUpperC c) = pyLowerC c := by
  rcases pyUpperC_cases c with ⟨h1, h2, e⟩ | ⟨h1, h2, e⟩ | rfl | rfl | rfl | rfl | rfl | ⟨h1, h2, e⟩
  · rw [e, pyLowerC_of_ascii (c - 32) (by omega) (by omega),
      pyLowerC_of_out c (by omega) (by omega) (by omega) (by omega)
      (by omega) (by omega) (by omega)]
    omega
  · rw [e, pyLowerC_of_cyr (c - 32) (by omega) (by omega),
      pyLowerC_of_out c (by omega) (by omega) (by omega) (by omega)
      (by omega) (by omega) (by omega)]
    omega
  · decide
  · decide
  · decide
  · decide
  · decide
  · rw [e]

theorem pyUpperC_pyUpperC (c : Nat) : pyUpperC (pyUpperC c) = pyUpperC c := by
  rcases pyUpperC_cases c with ⟨h1, h2, e⟩ | ⟨h1, h2, e⟩ | rfl | rfl | rfl | rfl | rfl | ⟨h1, h2, e⟩
  · rw [e, pyUpperC_of_out (c - 32) (by omega) (by omega) (by omega) (by omega)
      (by omega) (by omega) (by omega)]
  · rw [e, pyUpperC_of_out (c - 32) (by omega) (by omega) (by omega) (by omega)
      (by omega) (by omega) (by omega)]
  · decide
  · decide
  · decide
  · decide
  · decide
  · rw [e]; exact e

theorem isPyAlpha_pyLowerC (c : Nat) : IsPyAlpha (pyLowerC c) ↔ IsPyAlpha c := by
  rcases pyLowerC_cases c with ⟨h1, h2, e⟩ | ⟨h1, h2, e⟩ | rfl | rfl | rfl | rfl | rfl | ⟨h1, h2, e⟩
  · rw [e]; unfold IsPyAlpha; omega
  · rw [e]; unfold IsPyAlpha; omega
  · decide
  · decide
  · decide
  · decide
  · decide
  · rw [e]

theorem isPyAlpha_pyUpperC (c : Nat) : IsPyAlpha (pyUpperC c) ↔ IsPyAlpha c := by
  rcases pyUpperC_cases c with ⟨h1, h2, e⟩ | ⟨h1, h2, e⟩ | rfl | rfl | rfl | rfl | rfl | ⟨h1, h2, e⟩
  · rw [e]; unfold IsPyAlpha; omega
  · rw [e]; unfold IsPyAlpha; omega
  · decide
  · decide
  · decide
  · decide
  · decide
  · rw [e]

theorem isWs_pyLowerC (c : Nat) : IsWs (pyLowerC c) ↔ IsWs c := by
  rcases pyLowerC_cases c with ⟨h1, h2, e⟩ | ⟨h1, h2, e⟩ | rfl | rfl | rfl | rfl | rfl | ⟨h1, h2, e⟩
  · rw [e]; unfold IsWs; omega
  · rw [e]; unfold IsWs; omega
  · decide
  · decide
  · decide
  · decide
  · decide
  · rw [e]

theorem isWs_pyUpperC (c : Nat) : IsWs (pyUpperC c) ↔ IsWs c := by
  rcases pyUpperC_cases c with ⟨h1, h2, e⟩ | ⟨h1, h2, e⟩ | rfl | rfl | rfl | rfl | rfl | ⟨h1, h2, e⟩
  · rw [e]; unfold IsWs; omega
  · rw [e]; unfold IsWs; omega
  · decide
  · decide
  · decide
  · decide
  · decide
  · rw [e]

/-- Lowercasing after title-casing gives the same result as plain lowercasing. -/
theorem pyLowerL_pyTitleAux (b : Bool) (s : PyStr) :
    pyLowerL (pyTitleAux b s) = pyLowerL s := by
  induction s generalizing b with
  | nil => rfl
  | cons c cs ih =>
    have ih1 := ih true
    have ih2 := ih false
    simp only [pyLowerL] at ih1 ih2 ⊢
    by_cases h : IsPyAlpha c
    · cases b <;> simp [pyTitleAux, h, ih1, pyLowerC_pyLowerC, pyLowerC_pyUpperC]
    · simp [pyTitleAux, h, ih2]

/-- Title-casing is idempotent. -/
theorem pyTitleAux_idem (b : Bool) (s : PyStr) :
    pyTitleAux b (pyTitleAux b s) = pyTitleAux b s := by
  induction s generalizing b with
  | nil => rfl
  | cons c cs ih =>
    by_cases h : IsPyAlpha c
    · cases b <;>
        simp [pyTitleAux, h, isPyAlpha_pyLowerC, isPyAlpha_pyUpperC, ih,
          pyLowerC_pyLowerC, pyUpperC_pyUpperC]
    · simp [pyTitleAux, h, ih]

/-- `str.strip()` is idempotent. -/
theorem pyStrip_idem (s : PyStr) : pyStrip (pyStrip s) = pyStrip s := by
  unfold pyStrip
  have h1 : List.dropWhile wsB (List.rdropWhile wsB (s.dropWhile wsB))
      = List.rdropWhile wsB (s.dropWhile wsB) := by
    cases hr : List.rdropWhile wsB (s.dropWhile wsB) with
    | nil => simp
    | cons c t =>
      have hpre : List.rdropWhile wsB (s.dropWhile wsB) <+: s.dropWhile wsB :=
        List.rdropWhile_prefix wsB (s.dropWhile wsB)
      rw [hr] at hpre
      have hne : s.dropWhile wsB ≠ [] := by
        intro hnil
        rw [hnil] at hpre
        exact absurd (List.prefix_nil.mp hpre) (by simp)
      have hhead : (c :: t).head (by simp) = (s.dropWhile wsB).head hne :=
        hpre.head (by simp)
      have hnot : ¬ (wsB ((s.dropWhile wsB).head hne) = true) := by
        have := List.head_dropWhile_not wsB s hne
        simpa using this
      simp only [List.head_cons] at hhead
      rw [List.dropWhile_cons]
      simp [← hhead] at hnot ⊢
      simp [hnot]
  rw [h1, List.rdropWhile_idempotent]

/-- The result of `pyStrip` is a fixed point of `pyStrip`, stated through the
two one-sided drops. -/
theorem pyStrip_of_fixed (x : PyStr) (hd : List.dropWhile wsB x = x)
    (hr : List.rdropWhile wsB x = x) : pyStrip x = x := by
  unfold pyStrip; rw [hd, hr]

/-- A fixed point of `pyStrip` is fixed under each one-sided drop. -/
theorem pyStrip_fixed_parts (x : PyStr) (h : pyStrip x = x) :
    List.dropWhile wsB x = x ∧ List.rdropWhile wsB x = x := by
  have hsuf : List.dropWhile wsB x <:+ x := List.dropWhile_suffix wsB
  have hpre : List.rdropWhile wsB (List.dropWhile wsB x) <+: List.dropWhile wsB x :=
    List.rdropWhile_prefix wsB (List.dropWhile wsB x)
  have hlen : x.length ≤ (List.dropWhile wsB x).length := by
    calc x.length = (pyStrip x).length := by rw [h]
    _ ≤ (List.dropWhile wsB x).length := hpre.length_le
  have hd : List.dropWhile wsB x = x := hsuf.eq_of_length (le_antisymm hsuf.length_le hlen)
  refine ⟨hd, ?_⟩
  have := h
  unfold pyStrip at this
  rwa [hd] at this

theorem pyTitleAux_append (b : Bool) (l1 l2 : PyStr) :
    pyTitleAux b (l1 ++ l2) = pyTitleAux b l1 ++ pyTitleAux (endsAlpha b l1) l2 := by
  induction l1 generalizing b with
  | nil => rfl
  | cons c cs ih =>
    by_cases h : IsPyAlpha c <;> simp [pyTitleAux, endsAlpha, h, ih]

theorem pyTitleAux_singleton (b : Bool) (x : Nat) :
    pyTitleAux b [x]
      = [if IsPyAlpha x then (if b then pyLowerC x else pyUpperC x) else x] := by
  by_cases h : IsPyAlpha x <;> simp [pyTitleAux, h]

/-- Title-casing one character preserves its whitespace status. -/
theorem isWs_titleChar (b : Bool) (x : Nat) :
    IsWs (if IsPyAlpha x then (if b then pyLowerC x else pyUpperC x) else x) ↔ IsWs x := by
  by_cases h : IsPyAlpha x
  · cases b <;> simp [h, isWs_pyLowerC, isWs_pyUpperC]
  · simp [h]

/-- Title-casing preserves fixedness under the left whitespace drop. -/
theorem dropWhile_pyTitleAux (b : Bool) (s : PyStr)
    (hd : List.dropWhile wsB s = s) :
    List.dropWhile wsB (pyTitleAux b s) = pyTitleAux b s := by
  cases s with
  | nil => rfl
  | cons c cs =>
    have hc : ¬ IsWs c := by
      intro hcc
      rw [List.dropWhile_cons] at hd
      have hw : wsB c = true := by simp [wsB, hcc]
      rw [if_pos hw] at hd
      have hsub : List.dropWhile wsB cs <:+ cs := List.dropWhile_suffix wsB
      have := hsub.length_le
      have := congrArg List.length hd
      simp at this
      omega
    by_cases h : IsPyAlpha c
    · have hc2 : ¬ IsWs (if b then pyLowerC c else pyUpperC c) := by
        cases b <;> simp [isWs_pyLowerC, isWs_pyUpperC, hc]
      simp [pyTitleAux, h, List.dropWhile_cons, wsB, hc2]
    · simp [pyTitleAux, h, List.dropWhile_cons, wsB, hc]

/-- Title-casing preserves fixedness under the right whitespace drop. -/
theorem rdropWhile_pyTitleAux (b : Bool) (s : PyStr)
    (hr : List.rdropWhile wsB s = s) :
    List.rdropWhile wsB (pyTitleAux b s) = pyTitleAux b s := by
  cases hs : s with
  | nil => rfl
  | cons c0 cs0 =>
    rw [← hs]
    have hne : s ≠ [] := by rw [hs]; simp
    have hlast : ¬ (wsB (s.getLast hne) = true) := List.rdropWhile_eq_self_iff.mp hr hne
    have hdecomp : s.dropLast ++ [s.getLast hne] = s := List.dropLast_append_getLast hne
    rw [← hdecomp, pyTitleAux_append, pyTitleAux_singleton]
    apply List.rdropWhile_concat_neg
    have : ¬ IsWs (s.getLast hne) := by simpa [wsB] using hlast
    simp [wsB, isWs_titleChar, this]

/-- Title-casing preserves fixedness under `pyStrip`. -/
theorem pyStrip_pyTitleAux (b : Bool) (x : PyStr) (h : pyStrip x = x) :
    pyStrip (pyTitleAux b x) = pyTitleAux b x := by
  obtain ⟨hd, hr⟩ := pyStrip_fixed_parts x h
  exact pyStrip_of_fixed _ (dropWhile_pyTitleAux b x hd) (rdropWhile_pyTitleAux b x hr)

/-- C9: `normalize_region_name` is idempotent: for every input string `s`,
normalizing twice gives the same result as normalizing once; once a region
name has been normalized (correction applied and title-cased), normalizing it
again returns it unchanged. -/
theorem c9_normalize_region_name_idempotent (s : PyStr) :
    normalizeRegionName (normalizeRegionName s) = normalizeRegionName s := by
  by_cases h1 : pyLowerL (pyStrip s) = pyS "хмельничена"
  · have e : normalizeRegionName s = pyS "Хмельниччина" := by
      simp only [normalizeRegionName, h1]
      rfl
    rw [e]
    decide
  · by_cases h2 : pyLowerL (pyStrip s) = pyS "хмельниченна"
    · have e : normalizeRegionName s = pyS "Хмельниччина" := by
        simp only [normalizeRegionName, h2]
        rfl
      rw [e]
      decide
    · have hb1 : (pyLowerL (pyStrip s) == pyS "хмельничена") = false :=
        beq_eq_false_iff_ne.mpr h1
      have hb2 : (pyLowerL (pyStrip s) == pyS "хмельниченна") = false :=
        beq_eq_false_iff_ne.mpr h2
      have hnone : List.lookup (pyLowerL (pyStrip s)) regionCorrections = none := by
        simp [regionCorrections, List.lookup, hb1, hb2]
      have e : normalizeRegionName s = pyTitleAux false (pyStrip s) := by
        simp only [normalizeRegionName, hnone]
        rfl
      rw [e]
      have hfix := pyStrip_pyTitleAux false (pyStrip s) (pyStrip_idem s)
      have hlow : pyLowerL (pyTitleAux false (pyStrip s)) = pyLowerL (pyStrip s) :=
        pyLowerL_pyTitleAux false (pyStrip s)
      have hnone2 : List.lookup
          (pyLowerL (pyStrip (pyTitleAux false (pyStrip s)))) regionCorrections = none := by
        rw [hfix, hlow]; exact hnone
      simp only [normalizeRegionName, hnone2]
      rw [hfix]
      exact pyTitleAux_idem false (pyStrip s)

/-- C5: at the store holding only the rows `(1, "Kyiv Oblast")` and
`(2, "kyiv oblast")` — two RegionFacts differing only in case — the claim
says `clean_region_duplicates` keeps row 2, deletes row 1 and returns 1,
restoring the at-most-one-per-case-insensitive-name invariant.  The code
instead renames row 2 to `normalize_region_name("kyiv oblast") =
"Kyiv Oblast"`, which collides with row 1's exact name: the UPDATE raises
`IntegrityError` on `UNIQUE(region_name)`, the transaction rolls back, and
the function returns 0 with both duplicate rows still present. -/
theorem c5_clean_region_duplicates_failing_input :
    cleanRegionDuplicates
        ⟨[(1, ⟨pyS "Kyiv Oblast", 50, 30, qPoint8, pyS "AI"⟩),
          (2, ⟨pyS "kyiv oblast", 49, 31, qPoint8, pyS "AI"⟩)], 3⟩
      = (⟨[(1, ⟨pyS "Kyiv Oblast", 50, 30, qPoint8, pyS "AI"⟩),
          (2, ⟨pyS "kyiv oblast", 49, 31, qPoint8, pyS "AI"⟩)], 3⟩, 0) := by
  decide

/-- C3: for latitude/longitude outside the bounding box, both
`save_city_coordinates` and `save_region_coordinates` return `False` and
leave their table unchanged. -/
theorem c3_bounding_box_rejection (t : CitiesTable) (rt : RegionsTable)
    (cityName regionName rName : PyStr) (la lo cf : ℚ) (src : PyStr)
    (h : ¬ ValidUkraineCoordinates la lo) :
    saveCityCoordinates t cityName regionName la lo cf src = (t, false)
    ∧ saveRegionCoordinates rt rName la lo cf src = (rt, false) := by
  unfold saveCityCoordinates saveRegionCoordinates
  rw [if_neg h, if_neg h]
  exact ⟨rfl, rfl⟩

/-- C3 witness: the claim's example point latitude 60, longitude 30 is
rejected by both writers and the stores are unchanged. -/
theorem c3_bounding_box_rejection_witness :
    saveCityCoordinates emptyCitiesTable (pyS "Kyiv") (pyS "Kyiv Oblast")
        60 30 qPoint8 (pyS "AI") = (emptyCitiesTable, false)
    ∧ saveRegionCoordinates emptyRegionsTable (pyS "Kyiv Oblast")
        60 30 qPoint8 (pyS "AI") = (emptyRegionsTable, false) :=
  c3_bounding_box_rejection emptyCitiesTable emptyRegionsTable
    (pyS "Kyiv") (pyS "Kyiv Oblast") (pyS "Kyiv Oblast") 60 30 qPoint8 (pyS "AI")
    (by decide)

theorem filter_self_idem {α : Type} (f : α → Bool) (l : List α) :
    (l.filter f).filter f = l.filter f := by
  induction l with
  | nil => rfl
  | cons a t ih => by_cases h : f a <;> simp [h, ih]

/-- C2 counterexample: the claim says `putRegion` is a no-op on the store
(returning success) whenever a RegionFact already exists for the
case-insensitive region name.  With the Cyrillic row "хмельниччина" stored
and the same name written as "Хмельниччина" — equal case-insensitively —
the existence check `LOWER(region_name) = LOWER(?)` uses SQLite's ASCII-only
`LOWER`, which is the identity on Cyrillic, so the check misses and
`save_region_coordinates` inserts a second, duplicate row while returning
True: the store changes, refuting the no-op. -/
theorem c2_counterexample :
    saveRegionCoordinates
        ⟨[(1, ⟨pyS "хмельниччина", 49, 27, qPoint8, pyS "AI"⟩)], 2⟩
        (pyS "Хмельниччина") 49 27 qPoint8 (pyS "AI")
      = (⟨[(1, ⟨pyS "хмельниччина", 49, 27, qPoint8, pyS "AI"⟩),
           (2, ⟨pyS "Хмельниччина", 49, 27, qPoint8, pyS "AI"⟩)], 3⟩, true)
    ∧ (saveRegionCoordinates
        ⟨[(1, ⟨pyS "хмельниччина", 49, 27, qPoint8, pyS "AI"⟩)], 2⟩
        (pyS "Хмельниччина") 49 27 qPoint8 (pyS "AI")).1
      ≠ ⟨[(1, ⟨pyS "хмельниччина", 49, 27, qPoint8, pyS "AI"⟩)], 2⟩ := by
  refine ⟨?_, ?_⟩ <;> decide

/-- C2 amended: `save_city_coordinates` twice with identical valid arguments
leaves the observable store (rows modulo auto-increment ids) exactly as one
save does (last write wins on the key `(name, normalized_region)`); and
`save_region_coordinates` is a no-op returning success when a RegionFact
already exists whose name matches the normalized input under SQLite's
ASCII-only `LOWER` fold — for case variants that this fold does not equate
(non-ASCII letters), the write inserts a duplicate row instead (see the
counterexample). -/
theorem c2_put_idempotent (t : CitiesTable) (rt : RegionsTable)
    (cityName regionName rName : PyStr) (la lo cf : ℚ) (src : PyStr)
    (hv : ValidUkraineCoordinates la lo)
    (hex : ∃ p ∈ rt.rows,
      sqlLowerL p.2.region_name = sqlLowerL (normalizeRegionName rName)) :
    citiesView (saveCityCoordinates
        (saveCityCoordinates t cityName regionName la lo cf src).1
        cityName regionName la lo cf src).1
      = citiesView (saveCityCoordinates t cityName regionName la lo cf src).1
    ∧ saveRegionCoordinates rt rName la lo cf src = (rt, true) := by
  constructor
  · simp only [saveCityCoordinates, if_pos hv, citiesView]
    rw [List.filter_append, filter_self_idem]
    simp
  · unfold saveRegionCoordinates
    rw [if_pos hv]
    obtain ⟨p, hp, he⟩ := hex
    have hany : rt.rows.any
        (fun p => decide (sqlLowerL p.2.region_name
          = sqlLowerL (normalizeRegionName rName))) = true := by
      rw [List.any_eq_true]
      exact ⟨p, hp, by simp [he]⟩
    simp [hany]

/-- C2 witness: a concrete double save of the same city row, and a region
save over a store already holding a case variant of the normalized name. -/
theorem c2_put_idempotent_witness :
    citiesView (saveCityCoordinates
        (saveCityCoordinates emptyCitiesTable (pyS "Kyiv") (pyS "Kyiv Oblast")
          50 30 qPoint8 (pyS "AI")).1
        (pyS "Kyiv") (pyS "Kyiv Oblast") 50 30 qPoint8 (pyS "AI")).1
      = citiesView (saveCityCoordinates emptyCitiesTable (pyS "Kyiv")
          (pyS "Kyiv Oblast") 50 30 qPoint8 (pyS "AI")).1
    ∧ saveRegionCoordinates
        ⟨[(1, ⟨pyS "kyiv oblast", 50, 30, qPoint8, pyS "AI"⟩)], 2⟩
        (pyS "KYIV OBLAST") 50 30 qPoint8 (pyS "AI")
      = (⟨[(1, ⟨pyS "kyiv oblast", 50, 30, qPoint8, pyS "AI"⟩)], 2⟩, true) :=
  c2_put_idempotent emptyCitiesTable
    ⟨[(1, ⟨pyS "kyiv oblast", 50, 30, qPoint8, pyS "AI"⟩)], 2⟩
    (pyS "Kyiv") (pyS "Kyiv Oblast") (pyS "KYIV OBLAST") 50 30 qPoint8 (pyS "AI")
    (by decide) (by decide)

/-- C4 counterexample: `putRegion` with the listed misspelling variant
"Хмельничена" stores the corrected title-cased name "Хмельниччина", but
`get_region_coordinates` applies no correction table (and SQLite `LOWER`
folds ASCII only), so looking up the very spelling that was just written
returns nothing while the corrected spelling succeeds: the two spellings of
the same region do not resolve to the same RegionFact. -/
theorem c4_counterexample :
    (saveRegionCoordinates emptyRegionsTable (pyS "Хмельничена")
        49 27 qPoint8 (pyS "AI")).2 = true
    ∧ getRegionCoordinates
        (saveRegionCoordinates emptyRegionsTable (pyS "Хмельничена")
          49 27 qPoint8 (pyS "AI")).1 (pyS "Хмельничена") = none
    ∧ getRegionCoordinates
        (saveRegionCoordinates emptyRegionsTable (pyS "Хмельничена")
          49 27 qPoint8 (pyS "AI")).1 (pyS "Хмельниччина")
      = some ⟨49, 27, qPoint8, pyS "database_AI"⟩ := by
  decide

/-- C4 amended: region writes pass through the full normalization, but
region lookups normalize only by stripping and ASCII (`LOWER`) case folding,
with no correction table.  Consequently (i) any two spellings that agree
after strip + ASCII fold give identical lookup results on any store, and
(ii) after a single successful `putRegion` into an empty store, any spelling
agreeing with the stored normalized name modulo strip + ASCII case resolves
to that RegionFact. -/
theorem c4_region_lookup_after_put (t : RegionsTable) (q1 q2 r : PyStr)
    (la lo cf : ℚ) (src : PyStr)
    (hq : sqlLowerL (pyStrip q1) = sqlLowerL (pyStrip q2))
    (hv : ValidUkraineCoordinates la lo)
    (hr : sqlLowerL (pyStrip q1) = sqlLowerL (normalizeRegionName r)) :
    getRegionCoordinates t q1 = getRegionCoordinates t q2
    ∧ getRegionCoordinates
        (saveRegionCoordinates emptyRegionsTable r la lo cf src).1 q1
      = some ⟨la, lo, cf, pyS "database_" ++ src⟩ := by
  constructor
  · unfold getRegionCoordinates
    rw [hq]
  · simp only [saveRegionCoordinates, if_pos hv, emptyRegionsTable]
    simp only [List.any_nil, Bool.false_eq_true, if_false]
    unfold getRegionCoordinates
    simp [List.find?, hr.symm]

/-- C4 amended witness: two ASCII case/whitespace variants of a stored name
both resolve after one put. -/
theorem c4_region_lookup_after_put_witness :
    getRegionCoordinates emptyRegionsTable (pyS " kyiv OBLAST ")
      = getRegionCoordinates emptyRegionsTable (pyS "KYIV oblast")
    ∧ getRegionCoordinates
        (saveRegionCoordinates emptyRegionsTable (pyS "Kyiv Oblast")
          50 30 qPoint8 (pyS "AI")).1 (pyS " kyiv OBLAST ")
      = some ⟨50, 30, qPoint8, pyS "database_AI"⟩ :=
  c4_region_lookup_after_put emptyRegionsTable (pyS " kyiv OBLAST ")
    (pyS "KYIV oblast") (pyS "Kyiv Oblast") 50 30 qPoint8 (pyS "AI")
    (by decide) (by decide) (by decide)

example : extractWeaponInfo (pyS "Одещина:\n2 Групи КР курсом на Київ")
    = [(pyS "Одещина", [⟨pyS "Х101", 4, pyS "Київ"⟩])] := by decide

example : extractWeaponInfo (pyS "Одещина:\n3х Шахед курсом на Одесу\nКР курсом на Київ")
    = [(pyS "Одещина", [⟨pyS "Шахед", 3, pyS "Одесу"⟩, ⟨pyS "Х101", 1, pyS "Київ"⟩])] := by
  decide

example : extractWeaponInfo (pyS "перед заголовком Шахед курсом на Одесу\nОдещина:")
    = [(pyS "Одещина", [])] := by decide

/-- C8: a line matching the grouped pattern, processed under a truthy
current region (set by a region header whose name is non-empty, the
`if current_region:` test of the source), appends exactly one event —
canonical token Х101, count = (leading count, default 1) × 2, stripped
destination — to that region's list and changes nothing else of the
state. -/
theorem c8_grouped_category_multiplication
    (st : List (PyStr × List Weapon) × Option PyStr) (rawLine : PyStr)
    (r : PyStr) (cnt : Option Nat) (city : PyStr)
    (hr : st.2 = some r) (hrne : r ≠ [])
    (hcolon : ¬ (pyStrip rawLine).getLast? = some 58)
    (hmatch : groupKrSearch (pyStrip rawLine) = some (cnt, city)) :
    processLine st rawLine
      = (appendEvent st.1 r ⟨pyS "Х101", cnt.getD 1 * 2, pyStrip city⟩, some r) := by
  have hne : ¬ pyStrip rawLine = [] := by
    intro h0
    rw [h0] at hmatch
    exact Option.noConfusion hmatch
  unfold processLine
  rw [if_neg hne, if_neg hcolon, hr]
  simp only [if_neg hrne, hmatch]

/-- C8 witness: the claim's concrete example — the grouped line with count 2
under the region header (source tokens: "2 Групи КР курсом на Київ" under
"Одещина:") yields one event with weapon type Х101 and count 4. -/
theorem c8_grouped_category_multiplication_witness :
    processLine ([(pyS "Одещина", [])], some (pyS "Одещина"))
        (pyS "2 Групи КР курсом на Київ")
      = ([(pyS "Одещина", [⟨pyS "Х101", 4, pyS "Київ"⟩])], some (pyS "Одещина")) := by
  have h := c8_grouped_category_multiplication
    ([(pyS "Одещина", [])], some (pyS "Одещина"))
    (pyS "2 Групи КР курсом на Київ") (pyS "Одещина") (some 2) (pyS "Київ")
    rfl (by decide) (by decide) (by decide)
  rw [h]
  decide

theorem appendEvent_key_mem (regions : List (PyStr × List Weapon))
    (r0 r : PyStr) (e : Weapon) (v : List Weapon) (hv : (r, v) ∈ regions) :
    ∃ v2, (r, v2) ∈ appendEvent regions r0 e := by
  refine ⟨if r = r0 then v ++ [e] else v, ?_⟩
  have hm := List.mem_map_of_mem
    (fun p : PyStr × List Weapon => if p.1 = r0 then (p.1, p.2 ++ [e]) else p) hv
  unfold appendEvent
  by_cases h : r = r0 <;> simp only [h, if_true, if_false, if_pos, if_neg] at hm ⊢ <;>
    simpa using hm

theorem addRegionIfAbsent_key_mem (regions : List (PyStr × List Weapon))
    (r : PyStr) : ∃ v, (r, v) ∈ addRegionIfAbsent regions r := by
  unfold addRegionIfAbsent
  by_cases h : regions.any (fun p => decide (p.1 = r)) = true
  · rw [if_pos h]
    obtain ⟨p, hp, he⟩ := List.any_eq_true.mp h
    have hpr : p.1 = r := by simpa using he
    exact ⟨p.2, by rw [← hpr]; exact hp⟩
  · rw [if_neg h]
    exact ⟨[], List.mem_append_right _ (by simp)⟩

theorem processLine_key_mono (st : List (PyStr × List Weapon) × Option PyStr)
    (l : PyStr) (r : PyStr) (h : ∃ v, (r, v) ∈ st.1) :
    ∃ v, (r, v) ∈ (processLine st l).1 := by
  obtain ⟨v, hv⟩ := h
  unfold processLine
  by_cases h1 : pyStrip l = []
  · rw [if_pos h1]; exact ⟨v, hv⟩
  rw [if_neg h1]
  by_cases h2 : (pyStrip l).getLast? = some 58
  · rw [if_pos h2]
    unfold addRegionIfAbsent
    by_cases h3 : st.1.any
        (fun p => decide (p.1 = (pyStrip l).filter fun c => decide (c ≠ 58))) = true
    · rw [if_pos h3]; exact ⟨v, hv⟩
    · rw [if_neg h3]; exact ⟨v, List.mem_append_left _ hv⟩
  rw [if_neg h2]
  cases hcur : st.2 with
  | none => exact ⟨v, hv⟩
  | some r0 =>
    by_cases hr0 : r0 = []
    · subst hr0
      exact ⟨v, hv⟩
    · simp only [if_neg hr0]
      cases hg : groupKrSearch (pyStrip l) with
      | some p =>
        obtain ⟨cnt, city⟩ := p
        exact appendEvent_key_mem st.1 r0 r _ v hv
      | none =>
        cases hs : standardSearch (pyStrip l) with
        | some p =>
          obtain ⟨cnt, w, city⟩ := p
          exact appendEvent_key_mem st.1 r0 r _ v hv
        | none => exact ⟨v, hv⟩

theorem foldl_processLine_key_mono (lines : List PyStr)
    (st : List (PyStr × List Weapon) × Option PyStr) (r : PyStr)
    (h : ∃ v, (r, v) ∈ st.1) :
    ∃ v, (r, v) ∈ (lines.foldl processLine st).1 := by
  induction lines generalizing st with
  | nil => exact h
  | cons l ls ih => exact ih _ (processLine_key_mono st l r h)

theorem processLine_header (st : List (PyStr × List Weapon) × Option PyStr)
    (rawLine : PyStr) (hne : ¬ pyStrip rawLine = [])
    (hc : (pyStrip rawLine).getLast? = some 58) :
    ∃ v, ((pyStrip rawLine).filter (fun c => decide (c ≠ 58)), v)
      ∈ (processLine st rawLine).1 := by
  unfold processLine
  rw [if_neg hne, if_pos hc]
  exact addRegionIfAbsent_key_mem st.1 _

/-- C10: `extract_weapon_info` creates an entry for every region header line
(a line that is non-empty after stripping and ends in ':'), keyed by the
line with all colons removed, even when no later line matches an item
pattern — so the output can map a region to an empty event list, as the
concrete run in the second conjunct shows. -/
theorem c10_header_always_keyed (text : PyStr) (rawLine : PyStr)
    (hmem : rawLine ∈ splitOnNl (pyStrip text))
    (hne : ¬ pyStrip rawLine = [])
    (hc : (pyStrip rawLine).getLast? = some 58) :
    (∃ v, ((pyStrip rawLine).filter (fun c => decide (c ≠ 58)), v)
      ∈ extractWeaponInfo text)
    ∧ extractWeaponInfo (pyS "Одещина:\nцей рядок не збігається")
      = [(pyS "Одещина", [])] := by
  constructor
  · obtain ⟨s1, s2, hsplit⟩ := List.append_of_mem hmem
    unfold extractWeaponInfo
    rw [hsplit, List.foldl_append, List.foldl_cons]
    exact foldl_processLine_key_mono s2 _ _ (processLine_header _ _ hne hc)
  · decide

/-- C10 witness: a concrete bulletin whose only header line gets its entry
even though the body line matches no pattern. -/
theorem c10_header_always_keyed_witness :
    (∃ v, ((pyStrip (pyS "Одещина:")).filter (fun c => decide (c ≠ 58)), v)
      ∈ extractWeaponInfo (pyS "Одещина:\nцей рядок не збігається"))
    ∧ extractWeaponInfo (pyS "Одещина:\nцей рядок не збігається")
      = [(pyS "Одещина", [])] :=
  c10_header_always_keyed (pyS "Одещина:\nцей рядок не збігається")
    (pyS "Одещина:") (by decide) (by decide) (by decide)

theorem retryGo_err_none (maxRetries : Nat) (apiDelay : ℚ)
    (att : Nat → ApiAttempt) (jit : Nat → ℚ)
    (h : ∀ i, ∃ m, att i = ApiAttempt.err m) :
    ∀ remaining attempt,
      (retryGo maxRetries apiDelay att jit remaining attempt).2 = none := by
  intro remaining
  induction remaining with
  | zero => intro attempt; rfl
  | succ r ih =>
    intro attempt
    obtain ⟨m, hm⟩ := h attempt
    unfold retryGo
    rw [hm]
    by_cases hq : isQuotaMsg m = true <;> by_cases hr : isRateLimitMsg m = true <;>
      by_cases hl : attempt < maxRetries - 1 <;> simp [hq, hr, hl, ih]

/-- C6 counterexample: exhausting the three attempts on quota errors, on
rate-limit errors and on transient errors all return the very same value
`None` — the failure result of a quota run carries no kind and is not
distinguishable from the rateLimited or transient failures (only the log
lines and the backoff schedule differ). -/
theorem c6_counterexample :
    (rateLimitedApiCall 3 2
        (fun _ => ApiAttempt.err (pyS "You exceeded your current quota"))
        (fun _ => 2)).2 = none
    ∧ (rateLimitedApiCall 3 2
        (fun _ => ApiAttempt.err (pyS "rate limit exceeded"))
        (fun _ => 2)).2 = none
    ∧ (rateLimitedApiCall 3 2
        (fun _ => ApiAttempt.err (pyS "connection reset"))
        (fun _ => 2)).2 = none
    ∧ (rateLimitedApiCall 3 2
        (fun _ => ApiAttempt.err (pyS "You exceeded your current quota"))
        (fun _ => 2)).2
      = (rateLimitedApiCall 3 2
        (fun _ => ApiAttempt.err (pyS "rate limit exceeded"))
        (fun _ => 2)).2 := by
  refine ⟨?_, ?_, ?_, ?_⟩ <;> decide

/-- C6 amended: a quota-classified failure at attempt n with n + 1 below the
attempt limit sleeps exactly 10·2^n plus the drawn jitter (so between
10·2^n + 1 and 10·2^n + 5 when the jitter is in [1,5]) and retries;
exhausting all attempts on quota failures yields `None`; and that result is
the identical value produced by runs exhausting on any other error kind, so
the quota failure is not distinguishable from rateLimited or transient
failures in the returned value. -/
theorem c6_quota_backoff_and_exhaustion (maxRetries : Nat) (apiDelay : ℚ)
    (att : Nat → ApiAttempt) (jit : Nat → ℚ) (attempt : Nat) (msg : PyStr)
    (hatt : att attempt = ApiAttempt.err msg)
    (hquota : isQuotaMsg msg = true)
    (hlast : attempt + 1 < maxRetries)
    (hjl : 1 ≤ jit attempt) (hju : jit attempt ≤ 5) :
    (retryGo maxRetries apiDelay att jit (maxRetries - attempt) attempt
      = ((2 ^ attempt * 10 + jit attempt) ::
          (retryGo maxRetries apiDelay att jit
            (maxRetries - (attempt + 1)) (attempt + 1)).1,
         (retryGo maxRetries apiDelay att jit
            (maxRetries - (attempt + 1)) (attempt + 1)).2))
    ∧ (2 ^ attempt * 10 + 1 ≤ 2 ^ attempt * 10 + jit attempt
        ∧ 2 ^ attempt * 10 + jit attempt ≤ 2 ^ attempt * 10 + 5)
    ∧ ((∀ i, ∃ m2, att i = ApiAttempt.err m2 ∧ isQuotaMsg m2 = true) →
        (rateLimitedApiCall maxRetries apiDelay att jit).2 = none)
    ∧ (∀ att2 : Nat → ApiAttempt,
        (∀ i, ∃ m2, att2 i = ApiAttempt.err m2) →
        (∀ i, ∃ m2, att i = ApiAttempt.err m2) →
        (rateLimitedApiCall maxRetries apiDelay att jit).2
          = (rateLimitedApiCall maxRetries apiDelay att2 jit).2) := by
  refine ⟨?_, ⟨by gcongr, by gcongr⟩, ?_, ?_⟩
  · have hrem : maxRetries - attempt = (maxRetries - (attempt + 1)) + 1 := by
      omega
    rw [hrem]
    conv_lhs => simp only [retryGo]
    rw [hatt]
    have hlt : attempt < maxRetries - 1 := by omega
    simp [hquota, hlt]
  · intro hall
    exact retryGo_err_none maxRetries apiDelay att jit
      (fun i => ⟨(hall i).choose, (hall i).choose_spec.1⟩) maxRetries 0
  · intro att2 h2 h1
    unfold rateLimitedApiCall
    rw [retryGo_err_none maxRetries apiDelay att jit h1 maxRetries 0,
      retryGo_err_none maxRetries apiDelay att2 jit h2 maxRetries 0]

/-- C6 witness: with 3 attempts, a quota failure at attempt 0 and jitter
fixed at 2 sleeps 10·2^0 + 2 and retries; the all-quota run returns
`None`. -/
theorem c6_quota_backoff_and_exhaustion_witness :
    (retryGo 3 2 (fun _ => ApiAttempt.err (pyS "You exceeded your current quota"))
        (fun _ => 2) (3 - 0) 0
      = ((2 ^ 0 * 10 + 2) ::
          (retryGo 3 2 (fun _ => ApiAttempt.err (pyS "You exceeded your current quota"))
            (fun _ => 2) (3 - (0 + 1)) (0 + 1)).1,
         (retryGo 3 2 (fun _ => ApiAttempt.err (pyS "You exceeded your current quota"))
            (fun _ => 2) (3 - (0 + 1)) (0 + 1)).2))
    ∧ (rateLimitedApiCall 3 2
        (fun _ => ApiAttempt.err (pyS "You exceeded your current quota"))
        (fun _ => 2)).2 = none := by
  have h := c6_quota_backoff_and_exhaustion 3 2
    (fun _ => ApiAttempt.err (pyS "You exceeded your current quota"))
    (fun _ => 2) 0 (pyS "You exceeded your current quota")
    rfl (by decide) (by decide) (by decide) (by decide)
  exact ⟨h.1, h.2.2.1 (fun i => ⟨pyS "You exceeded your current quota", rfl, by decide⟩)⟩

theorem partitionWeapons_misses (db : DB) (regionName : PyStr)
    (ws : List Weapon) :
    (partitionWeapons db regionName ws).2
      = ws.filter (fun w =>
          decide (getCityCoordinates db.cities w.target_city regionName = none)) := by
  induction ws with
  | nil => rfl
  | cons w t ih =>
    cases hc : getCityCoordinates db.cities w.target_city regionName with
    | some c => simp [partitionWeapons, hc, ih]
    | none => simp [partitionWeapons, hc, ih]

/-- C1: in one region resolution the orchestrator issues at most one
enrichment call; the call list equals `[(region, misses)]` exactly when the
miss list is non-empty or no RegionFact was found, and is empty otherwise —
so a call is issued if and only if that condition holds, every issued call
carries precisely the localities whose cache lookup missed, and a cached
locality is never part of any enrichment request. -/
theorem c1_single_enrichment_call (db : DB) (regionName : PyStr)
    (weaponsList : List Weapon) (ai : AiOutcome) :
    (getRegionCoordinatesFromAi db regionName weaponsList ai).2.2.length ≤ 1
    ∧ (getRegionCoordinatesFromAi db regionName weaponsList ai).2.2
      = (if weaponsList.filter (fun w =>
            decide (getCityCoordinates db.cities w.target_city regionName = none)) ≠ []
          ∨ getRegionCoordinates db.regions regionName = none
        then [(regionName, weaponsList.filter (fun w =>
            decide (getCityCoordinates db.cities w.target_city regionName = none)))]
        else [])
    ∧ ((getRegionCoordinatesFromAi db regionName weaponsList ai).2.2 ≠ []
      ↔ weaponsList.filter (fun w =>
          decide (getCityCoordinates db.cities w.target_city regionName = none)) ≠ []
        ∨ getRegionCoordinates db.regions regionName = none) := by
  have hm := partitionWeapons_misses db regionName weaponsList
  have key : (getRegionCoordinatesFromAi db regionName weaponsList ai).2.2
      = (if (partitionWeapons db regionName weaponsList).2 ≠ []
            ∨ getRegionCoordinates db.regions regionName = none
          then [(regionName, (partitionWeapons db regionName weaponsList).2)]
          else []) := by
    by_cases hc : (partitionWeapons db regionName weaponsList).2 ≠ []
        ∨ getRegionCoordinates db.regions regionName = none
    · rw [if_pos hc]
      simp only [getRegionCoordinatesFromAi]
      rw [if_pos hc]
      cases ai <;> rfl
    · rw [if_neg hc]
      simp only [getRegionCoordinatesFromAi]
      rw [if_neg hc]
  rw [hm] at key
  refine ⟨?_, key, ?_⟩
  · rw [key]; split_ifs <;> simp
  · rw [key]; split_ifs with h
    · exact iff_of_true (by simp) h
    · exact iff_of_false (by simp) h

theorem processSingleRegion_emptyDB_apiFail (r : PyStr) (ws : List Weapon) :
    processSingleRegion emptyDB r ws AiOutcome.apiFail = (emptyDB, none) := by
  have hcall : getRegionCoordinatesFromAi emptyDB r ws AiOutcome.apiFail
      = (emptyDB, .fail (pyS "api_error"),
         [(r, (partitionWeapons emptyDB r ws).2)]) := by
    simp only [getRegionCoordinatesFromAi]
    have hnone : getRegionCoordinates emptyDB.regions r = none := rfl
    rw [if_pos (Or.inr hnone)]
  unfold processSingleRegion
  rw [hcall]

theorem processRegions_empty_apiFail (entries : List (PyStr × List Weapon)) :
    processRegions (fun _ => AiOutcome.apiFail) emptyDB entries = (emptyDB, []) := by
  induction entries with
  | nil => rfl
  | cons e rest ih =>
    obtain ⟨r, ws⟩ := e
    simp [processRegions, processSingleRegion_emptyDB_apiFail r ws, ih]

/-- C7: the run is total and never promotes a region failure to a crash:
the status is always "success" and the run totals are the sums over exactly
the successfully resolved regions; a failed region is skipped and the loop
continues with the remaining regions on the store the failed attempt left;
a successful region contributes exactly its RegionData; and in a worst case
where every region fails (empty caches, enrichment failing every call), the
run still returns a RunResult with no regions and zero resolved targets. -/
theorem c7_partial_failure_isolation (db : DB) (data : PyStr)
    (ai : PyStr → AiOutcome) :
    ((proccessData db data ai).2.status = pyS "success"
      ∧ (proccessData db data ai).2.total_regions
          = (proccessData db data ai).2.regions.length
      ∧ (proccessData db data ai).2.total_cities
          = ((proccessData db data ai).2.regions.map
              (fun r => r.targets.length)).sum
      ∧ (proccessData db data ai).2.total_weapons_count
          = ((proccessData db data ai).2.regions.map
              (fun r => r.weapons_count)).sum)
    ∧ (∀ (db0 db1 : DB) (r : PyStr) (ws : List Weapon)
          (rest : List (PyStr × List Weapon)),
        processSingleRegion db0 r ws (ai r) = (db1, none) →
        processRegions ai db0 ((r, ws) :: rest) = processRegions ai db1 rest)
    ∧ (∀ (db0 db1 : DB) (r : PyStr) (ws : List Weapon) (rd : RegionData)
          (rest : List (PyStr × List Weapon)),
        processSingleRegion db0 r ws (ai r) = (db1, some rd) →
        (processRegions ai db0 ((r, ws) :: rest)).2
          = rd :: (processRegions ai db1 rest).2)
    ∧ ((proccessData emptyDB data (fun _ => AiOutcome.apiFail)).2.regions = []
      ∧ (proccessData emptyDB data (fun _ => AiOutcome.apiFail)).2.total_cities
          = 0) := by
  refine ⟨⟨rfl, rfl, rfl, rfl⟩, ?_, ?_, ?_⟩
  · intro db0 db1 r ws rest h
    simp [processRegions, h]
  · intro db0 db1 r ws rd rest h
    simp [processRegions, h]
  · constructor <;>
      simp [proccessData, processRegions_empty_apiFail (extractWeaponInfo data)]

/-- C7 witness: a concrete failed region is skipped (the loop moves on), and
a concrete successful region (all answers cached, enrichment even failing)
contributes exactly its RegionData. -/
theorem c7_partial_failure_isolation_witness :
    processRegions (fun _ => AiOutcome.apiFail) emptyDB
        [(pyS "R1", []), (pyS "R2", [])]
      = processRegions (fun _ => AiOutcome.apiFail) emptyDB [(pyS "R2", [])]
    ∧ (processRegions (fun _ => AiOutcome.apiFail)
        ⟨emptyCitiesTable, ⟨[(1, ⟨pyS "Rgn", 50, 30, qPoint8, pyS "AI"⟩)], 2⟩⟩
        [(pyS "Rgn", [])]).2
      = (⟨pyS "Rgn", [], 0, 100, 0, some (50, 30)⟩ : RegionData)
        :: (processRegions (fun _ => AiOutcome.apiFail)
            ⟨emptyCitiesTable, ⟨[(1, ⟨pyS "Rgn", 50, 30, qPoint8, pyS "AI"⟩)], 2⟩⟩
            []).2 := by
  have h := c7_partial_failure_isolation emptyDB (pyS "") (fun _ => AiOutcome.apiFail)
  exact ⟨h.2.1 emptyDB emptyDB (pyS "R1") [] [(pyS "R2", [])] (by decide),
    h.2.2.1 ⟨emptyCitiesTable, ⟨[(1, ⟨pyS "Rgn", 50, 30, qPoint8, pyS "AI"⟩)], 2⟩⟩
      ⟨emptyCitiesTable, ⟨[(1, ⟨pyS "Rgn", 50, 30, qPoint8, pyS "AI"⟩)], 2⟩⟩
      (pyS "Rgn") [] ⟨pyS "Rgn", [], 0, 100, 0, some (50, 30)⟩ [] (by decide)⟩
